import Mathlib

/-!
Shallow embedding of the Determined task-lifecycle controllers:
the interactive `command` actor (master/internal/command/command.go) and the
`checkpointGCTask` actor (master/internal/checkpoint_gc.go).

Each actor is embedded as a pure step function from a state and an inbound
message to a new state together with an ordered list of emitted effects
(event-stream publications, proxy registrations, resource-manager calls,
session-store calls, container starts, kills).  The session store is modelled
separately as a fold over the emitted session effects, mirroring the external
database the Go code talks to.
-/

namespace Determined

/-- Task identifiers (`sproto.TaskID`). -/
abbrev TaskID := String

/-- The fields of `sproto.AllocateRequest` that the controller logic reads back. -/
structure AllocateRequest where
  id : TaskID
deriving DecidableEq, Repr

/-- One allocation entry (an element of `msg.Allocations`); each entry is
startable, identified here by an abstract handle. -/
structure Allocation where
  id : Nat
deriving DecidableEq, Repr

/-- Container states from `pkg/container`. -/
inductive ContainerState
  | Assigned
  | Pulling
  | Starting
  | Running
  | Terminated
deriving DecidableEq, Repr

/-- The container snapshot the controller stores (`container.Container`). -/
structure Container where
  state : ContainerState
deriving DecidableEq, Repr

/-- A network address reported by a Running container (`container.Address`). -/
structure Address where
  hostIP : String
  hostPort : Nat
deriving DecidableEq, Repr

/-- Event-stream publications (the `event` payloads told to `c.eventStream`). -/
inductive Event
  | scheduled
  | assigned
  | containerStarted
  | serviceReady
  | logLine (l : String)
  | terminateRequest
  | exited (status : String)
deriving DecidableEq, Repr

/-- Externally visible effects emitted by one message-handling step, in the
order the Go code issues them. -/
inductive Effect
  | allocateRequest (id : TaskID)
  | setGroupPriority
  | event (e : Event)
  | proxyRegister (serviceID : String) (a : Address) (tcp : Bool)
  | proxyUnregister (serviceID : String)
  | resourcesReleased
  | armGCTimer
  | sessionStart (id : TaskID)
  | sessionDelete (id : TaskID)
  | startContainer (allocID : Nat)
  | killAllocation (allocID : Nat)
  | stopSelf
deriving DecidableEq, Repr

/-- The mutable state of the `command` actor (struct `command`). -/
structure CommandState where
  taskID : TaskID
  proxyTCP : Bool
  userFiles : List String
  additionalFiles : List String
  readinessChecks : List (String × (String → Bool))
  readinessMessageSent : Bool
  task : Option AllocateRequest
  container : Option Container
  allocation : Option Allocation
  proxyNames : List String
  exitStatus : Option String
  addresses : List Address

/-- A freshly constructed command actor, before `actor.PreStart` is processed. -/
def CommandState.init (tid : TaskID) : CommandState :=
  { taskID := tid
    proxyTCP := false
    userFiles := []
    additionalFiles := []
    readinessChecks := []
    readinessMessageSent := false
    task := none
    container := none
    allocation := none
    proxyNames := []
    exitStatus := none
    addresses := [] }

/-- The externally exposed command states (type `State` in the command package). -/
inductive State
  | Pending
  | Assigned
  | Pulling
  | Starting
  | Running
  | Terminated
deriving DecidableEq, Repr

/-- Mirror of `(c *command) State()`: the container snapshot wins when present,
otherwise a set exit status means Terminated, otherwise Pending. -/
def CommandState.state (c : CommandState) : State :=
  match c.container with
  | some cont =>
    match cont.state with
    | .Assigned => .Assigned
    | .Pulling => .Pulling
    | .Starting => .Starting
    | .Running => .Running
    | .Terminated => .Terminated
  | none =>
    match c.exitStatus with
    | some _ => .Terminated
    | none => .Pending

/-- Mirror of `(c *command) exit(ctx, exitStatus)`: record the exit status,
publish the Exited event, release resources, arm the deferred-GC timer, and
issue the task-session delete when a task request exists. -/
def exit (c : CommandState) (exitStatus : String) : CommandState × List Effect :=
  let c := { c with exitStatus := some exitStatus }
  let es : List Effect :=
    [.event (.exited exitStatus), .resourcesReleased, .armGCTimer]
  match c.task with
  | some t => (c, es ++ [.sessionDelete t.id])
  | none => (c, es)

/-- Mirror of `(c *command) terminate(ctx)`: pre-allocation the exit path runs
directly with the abort message; once allocated, a kill is forwarded to the
allocation instead.  `releaseMsg` records whether the triggering message was a
`sproto.ReleaseResources` (which additionally publishes a terminate-request
event). -/
def terminate (c : CommandState) (releaseMsg : Bool) : CommandState × List Effect :=
  let evs : List Effect := if releaseMsg then [.event .terminateRequest] else []
  match c.allocation with
  | none =>
    let r := exit c "task is aborted without being scheduled"
    (r.1, evs ++ r.2)
  | some a => (c, evs ++ [.killAllocation a.id])

/-- Mirror of `(c *command) receiveSchedulerMsg` for `sproto.ResourcesAllocated`:
drop the message when no task request exists or the embedded ID mismatches;
otherwise the allocation must have exactly one entry (`check.Panic`, modelled
as `Except.error`), a task session is started, the single container is started
and the assigned event is published, after which the user file bundles are
evicted. -/
def receiveSchedulerMsg (c : CommandState) (id : TaskID) (allocs : List Allocation) :
    Except String (CommandState × List Effect) :=
  match c.task with
  | none => .ok (c, [])
  | some t =>
    if id ≠ t.id then .ok (c, [])
    else
      match allocs with
      | [a] =>
        .ok ({ c with allocation := some a, userFiles := [], additionalFiles := [] },
          [.sessionStart t.id, .startContainer a.id, .event .assigned])
      | _ => .error "Command should only receive an allocation of one container"

/-- The human-readable exit status derived from `msg.ContainerStopped.Failure`. -/
def exitStatusOf : Option String → String
  | some f => f
  | none => "command exited successfully"

/-- Mirror of the `sproto.TaskContainerStateChanged` case of `Receive`: the
container snapshot is always replaced; Running additionally stores the
addresses, registers one proxy entry per address keyed by the task ID and
publishes the started event; Terminated unregisters every proxy name, clears
the proxy-name set and runs the shared exit path. -/
def receiveContainerStateChanged (c : CommandState) (cont : Container)
    (startedAddrs : List Address) (stoppedFailure : Option String) :
    CommandState × List Effect :=
  let c := { c with container := some cont }
  match cont.state with
  | .Running =>
    let names := startedAddrs.map (fun _ => c.taskID)
    ({ c with addresses := startedAddrs, proxyNames := names },
      startedAddrs.map (fun a => Effect.proxyRegister c.taskID a c.proxyTCP)
        ++ [.event .containerStarted])
  | .Terminated =>
    let unregs := c.proxyNames.map Effect.proxyUnregister
    let r := exit { c with proxyNames := [] } (exitStatusOf stoppedFailure)
    (r.1, unregs ++ r.2)
  | _ => (c, [])

/-- Mirror of `(c *command) readinessChecksPass`: every check whose predicate
matches the log line is removed, and the result reports whether the set is now
empty. -/
def readinessChecksPass (c : CommandState) (l : String) : CommandState × Bool :=
  let remaining := c.readinessChecks.filter (fun nc => !(nc.2 l))
  ({ c with readinessChecks := remaining }, remaining.isEmpty)

/-- Mirror of the `sproto.ContainerLog` case of `Receive`: while the readiness
message has not been sent, the checks are evaluated (and passing ones removed);
when the set becomes empty the service-ready event is published once, before
the log-line event.  Once sent, the checks are no longer evaluated. -/
def receiveContainerLog (c : CommandState) (l : String) : CommandState × List Effect :=
  if !c.readinessMessageSent then
    let r := readinessChecksPass c l
    if r.2 then
      ({ r.1 with readinessMessageSent := true },
        [.event .serviceReady, .event (.logLine l)])
    else (r.1, [.event (.logLine l)])
  else (c, [.event (.logLine l)])

/-- Inbound messages of the `command` actor that the embedded logic handles. -/
inductive CommandMsg
  | preStart
  | resourcesAllocated (id : TaskID) (allocs : List Allocation)
  | killRequest
  | containerStateChanged (cont : Container) (startedAddrs : List Address)
      (stoppedFailure : Option String)
  | containerLog (l : String)
  | postStop
  | terminateForGC

/-- One dispatch of `(c *command) Receive`.  `Except.error` models the
`check.Panic` protocol violation. -/
def commandStep (c : CommandState) (m : CommandMsg) :
    Except String (CommandState × List Effect) :=
  match m with
  | .preStart =>
    .ok ({ c with task := some ⟨c.taskID⟩ },
      [.allocateRequest c.taskID, .setGroupPriority, .event .scheduled])
  | .resourcesAllocated id allocs => receiveSchedulerMsg c id allocs
  | .killRequest => .ok (terminate c false)
  | .containerStateChanged cont sa sf =>
    .ok (receiveContainerStateChanged c cont sa sf)
  | .containerLog l => .ok (receiveContainerLog c l)
  | .postStop => .ok (terminate c false)
  | .terminateForGC => .ok (c, [.stopSelf])

/-- Process a list of messages in arrival order, accumulating effects; a panic
aborts the run. -/
def runCommand (c : CommandState) : List CommandMsg →
    Except String (CommandState × List Effect)
  | [] => .ok (c, [])
  | m :: ms =>
    match commandStep c m with
    | .error e => .error e
    | .ok r =>
      match runCommand r.1 ms with
      | .error e => .error e
      | .ok r2 => .ok (r2.1, r.2 ++ r2.2)

/-- The mutable state of the `checkpointGCTask` actor. -/
structure GCState where
  task : Option AllocateRequest
  logs : List String
deriving Repr

/-- A freshly constructed GC actor, before `actor.PreStart`. -/
def GCState.init : GCState := { task := none, logs := [] }

/-- Inbound messages of the `checkpointGCTask` actor. -/
inductive GCMsg
  | preStart (id : TaskID)
  | resourcesAllocated (id : TaskID) (allocs : List Allocation)
  | releaseResources
  | containerStateChanged (cont : Container) (stoppedFailure : Option String)
  | containerLog (l : String)
  | postStop
deriving Repr

/-- One dispatch of `(t *checkpointGCTask) Receive`: PreStart records and sends
the allocate request; ResourcesAllocated starts a task session keyed by the
message's own ID and starts one container per allocation entry, with no ID
validation; ReleaseResources is deliberately ignored; a container-state change
is ignored unless Terminated, which stops the actor; log lines are appended;
PostStop deletes the session keyed by the recorded task request's ID. -/
def gcStep (g : GCState) (m : GCMsg) : GCState × List Effect :=
  match m with
  | .preStart id => ({ g with task := some ⟨id⟩ }, [.allocateRequest id])
  | .resourcesAllocated id allocs =>
    (g, .sessionStart id :: allocs.map (fun a => .startContainer a.id))
  | .releaseResources => (g, [])
  | .containerStateChanged cont _ =>
    if cont.state ≠ ContainerState.Terminated then (g, [])
    else (g, [.stopSelf])
  | .containerLog l => ({ g with logs := g.logs ++ [l] }, [])
  | .postStop =>
    match g.task with
    | some t => (g, [.sessionDelete t.id])
    | none => (g, [])

/-- Semantics of the external session store: fold one effect into the set of
task IDs that currently have a session row.  Deleting a missing session is a
no-op, as the store guarantees. -/
def applySessionEffect (store : List TaskID) : Effect → List TaskID
  | .sessionStart i => if i ∈ store then store else i :: store
  | .sessionDelete i => store.filter (fun j => j ≠ i)
  | _ => store

/-- The set of task IDs holding a session after a trace of effects, starting
from an empty store. -/
def sessionsAfter (es : List Effect) : List TaskID :=
  es.foldl applySessionEffect []

/-- Recognizer for container-start effects. -/
def isStartContainer : Effect → Bool
  | .startContainer _ => true
  | _ => false

/-- Recognizer for Exited (Terminated) event publications. -/
def isExitedEvent : Effect → Bool
  | .event (.exited _) => true
  | _ => false

/-- Recognizer for resource-release calls to the resource manager. -/
def isReleased : Effect → Bool
  | .resourcesReleased => true
  | _ => false

/-- Number of containers started in an effect trace. -/
def countStarts (es : List Effect) : Nat := es.countP isStartContainer

/-- Number of Exited events published in an effect trace. -/
def countExited (es : List Effect) : Nat := es.countP isExitedEvent

/-- Number of resource-release calls in an effect trace. -/
def countReleased (es : List Effect) : Nat := es.countP isReleased

/-- The remaining readiness checks after evaluating one log line. -/
def passLine (cs : List (String × (String → Bool))) (l : String) :
    List (String × (String → Bool)) :=
  cs.filter (fun nc => !(nc.2 l))

/-- Index of the first log line after whose processing the readiness-check set
is empty, mirroring the controller's evaluation order. -/
def firstReadyIdx (cs : List (String × (String → Bool))) :
    List String → Option Nat
  | [] => none
  | l :: ls =>
    let r := passLine cs l
    if r.isEmpty then some 0 else (firstReadyIdx r ls).map (· + 1)

/-- Per-line effect lists produced by feeding a sequence of log lines to the
command actor. -/
def logTrace (c : CommandState) : List String → List (List Effect)
  | [] => []
  | l :: ls =>
    let r := receiveContainerLog c l
    r.2 :: logTrace r.1 ls

/-- Recognizer for session-creation effects. -/
def isSessionStart : Effect → Bool
  | .sessionStart _ => true
  | _ => false

/-- Number of session creations issued in an effect trace. -/
def countSessionStarts (es : List Effect) : Nat := es.countP isSessionStart

/-- The readiness-check set of the worked example in the specification:
check A passes on the line "ready-A" and check B on the line "ready-B". -/
def readyChecksEx : List (String × (String → Bool)) :=
  [("A", fun l => l == "ready-A"), ("B", fun l => l == "ready-B")]

/-- Helper: starting every allocation entry yields one start per entry. -/
theorem countStarts_map_start (allocs : List Allocation) :
    countStarts (allocs.map (fun a => Effect.startContainer a.id)) = allocs.length := by
  induction allocs with
  | nil => rfl
  | cons a rest ih =>
    simp [countStarts, List.countP_cons, isStartContainer] at ih ⊢

/-- Claim C10: a container-state change reporting Assigned, Pulling or Starting
only replaces the stored container snapshot; no event is published, no proxy
entry is touched, and every other field (session use, addresses, exit status,
readiness set) is unchanged. -/
theorem c10_nonterminal_frame (c : CommandState) (cont : Container)
    (sa : List Address) (sf : Option String)
    (h : cont.state = ContainerState.Assigned ∨ cont.state = ContainerState.Pulling ∨
      cont.state = ContainerState.Starting) :
    receiveContainerStateChanged c cont sa sf = ({ c with container := some cont }, []) := by
  obtain ⟨st⟩ := cont
  rcases h with h | h | h <;> (cases h; rfl)

/-- Witness for C10 at a concrete Pulling transition. -/
theorem c10_witness :
    receiveContainerStateChanged (CommandState.init "t1") ⟨ContainerState.Pulling⟩ [] none
      = ({ CommandState.init "t1" with container := some ⟨ContainerState.Pulling⟩ }, []) :=
  c10_nonterminal_frame (CommandState.init "t1") ⟨ContainerState.Pulling⟩ [] none
    (Or.inr (Or.inl rfl))

/-- Claim C9: the GC controller ignores ReleaseResources entirely (no state
change, no kill, no release), ignores non-Terminated container reports, and
tears down (stops itself) exactly when the container itself reports
Terminated. -/
theorem c9_gc_ignores_release (g : GCState) (cont : Container) (sf : Option String)
    (h : cont.state ≠ ContainerState.Terminated) :
    gcStep g .releaseResources = (g, []) ∧
    gcStep g (.containerStateChanged cont sf) = (g, []) ∧
    (∀ m : GCMsg, Effect.stopSelf ∈ (gcStep g m).2 ↔
      ∃ cont2 sf2, m = GCMsg.containerStateChanged cont2 sf2 ∧
        cont2.state = ContainerState.Terminated) := by
  refine ⟨rfl, by simp [gcStep, h], ?_⟩
  intro m
  cases m with
  | preStart id => simp [gcStep]
  | resourcesAllocated id allocs =>
    simp only [gcStep]
    constructor
    · intro hmem
      rcases List.mem_cons.mp hmem with h1 | h2
      · exact absurd h1 (by simp)
      · rcases List.mem_map.mp h2 with ⟨a, _, ha⟩
        exact absurd ha (by simp)
    · rintro ⟨c2, s2, hc, -⟩
      exact absurd hc (by simp)
  | releaseResources => simp [gcStep]
  | containerStateChanged cont2 sf2 =>
    by_cases h2 : cont2.state = ContainerState.Terminated
    · simp [gcStep, h2]
    · simp [gcStep, h2]
  | containerLog l => simp [gcStep]
  | postStop =>
    cases ht : g.task <;> simp [gcStep, ht]

/-- Witness for C9 at a concrete Running container. -/
theorem c9_witness :
    gcStep GCState.init .releaseResources = (GCState.init, []) ∧
    gcStep GCState.init (.containerStateChanged ⟨ContainerState.Running⟩ none)
      = (GCState.init, []) :=
  ⟨(c9_gc_ignores_release GCState.init ⟨ContainerState.Running⟩ none (by decide)).1,
   (c9_gc_ignores_release GCState.init ⟨ContainerState.Running⟩ none (by decide)).2.1⟩

/-- Claim C1, counterexample: the GC controller performs no request-ID
validation, so an OnResourcesAllocated whose ID "t2" differs from the
outstanding request ID "t1" is not dropped: a task session keyed by "t2" is
opened and a container is started. -/
theorem c1_counterexample :
    (GCState.mk (some ⟨"t1"⟩) []).task = some ⟨"t1"⟩ ∧
    ("t2" : TaskID) ≠ "t1" ∧
    gcStep (GCState.mk (some ⟨"t1"⟩) []) (.resourcesAllocated "t2" [⟨0⟩])
      = (GCState.mk (some ⟨"t1"⟩) [], [.sessionStart "t2", .startContainer 0]) :=
  ⟨rfl, by decide, rfl⟩

/-- Claim C1 as amended: for the interactive command kind a mismatched
OnResourcesAllocated is dropped with no state change and no effect (no
session, no container, no event); the GC kind performs no request-ID
validation and handles any ResourcesAllocated normally, opening a session
keyed by the message's own ID and starting one container per entry. -/
theorem c1_mismatch_amended (c : CommandState) (t : AllocateRequest) (id : TaskID)
    (allocs : List Allocation) (g : GCState) (gt : AllocateRequest)
    (h : c.task = some t) (hne : id ≠ t.id)
    (hg : g.task = some gt) (hgne : id ≠ gt.id) :
    receiveSchedulerMsg c id allocs = .ok (c, []) ∧
    gcStep g (.resourcesAllocated id allocs)
      = (g, .sessionStart id :: allocs.map (fun a => .startContainer a.id)) := by
  constructor
  · simp [receiveSchedulerMsg, h, hne]
  · rfl

/-- Witness for C1's amended statement at a concrete mismatch. -/
theorem c1_witness :
    receiveSchedulerMsg { CommandState.init "t1" with task := some ⟨"t1"⟩ } "t2" [⟨0⟩]
      = .ok ({ CommandState.init "t1" with task := some ⟨"t1"⟩ }, []) :=
  (c1_mismatch_amended { CommandState.init "t1" with task := some ⟨"t1"⟩ } ⟨"t1"⟩ "t2"
    [⟨0⟩] (GCState.mk (some ⟨"t1"⟩) []) ⟨"t1"⟩ rfl (by decide) rfl (by decide)).1

/-- Claim C7, counterexample: the pre-allocation abort sets the exit reason to
the literal "task is aborted without being scheduled", not the claimed
"aborted before scheduling". -/
theorem c7_counterexample :
    (terminate { CommandState.init "t1" with task := some ⟨"t1"⟩ } false).1.exitStatus
      = some "task is aborted without being scheduled" ∧
    "task is aborted without being scheduled" ≠ "aborted before scheduling" :=
  ⟨rfl, by decide⟩

/-- Claim C7 as amended: Kill() on an unallocated controller (with no
container snapshot) transitions it straight to Terminated with exit reason
"task is aborted without being scheduled", publishing the Exited event,
releasing resources and issuing the session delete; Kill() on an allocated
controller only forwards a kill to the allocation — the state (in particular
the exit status) is unchanged and no Exited event or release is produced. -/
theorem c7_kill_behavior (c : CommandState) (t : AllocateRequest)
    (h : c.task = some t) (hc : c.container = none) :
    (c.allocation = none →
      terminate c false
        = ({ c with exitStatus := some "task is aborted without being scheduled" },
          [.event (.exited "task is aborted without being scheduled"),
           .resourcesReleased, .armGCTimer, .sessionDelete t.id]) ∧
      (terminate c false).1.state = State.Terminated) ∧
    (∀ a : Allocation, c.allocation = some a →
      terminate c false = (c, [.killAllocation a.id])) := by
  constructor
  · intro ha
    have he : terminate c false
        = ({ c with exitStatus := some "task is aborted without being scheduled" },
          [.event (.exited "task is aborted without being scheduled"),
           .resourcesReleased, .armGCTimer, .sessionDelete t.id]) := by
      simp [terminate, exit, ha, h]
    refine ⟨he, ?_⟩
    rw [he]
    simp [CommandState.state, hc]
  · intro a ha
    simp [terminate, ha]

/-- Witness for C7's amended statement: a concrete unallocated controller and a
concrete allocated one. -/
theorem c7_witness :
    terminate { CommandState.init "t1" with task := some ⟨"t1"⟩ } false
      = ({ CommandState.init "t1" with
           task := some ⟨"t1"⟩
           exitStatus := some "task is aborted without being scheduled" },
        [.event (.exited "task is aborted without being scheduled"),
         .resourcesReleased, .armGCTimer, .sessionDelete "t1"]) ∧
    terminate { CommandState.init "t1" with
        task := some ⟨"t1"⟩
        allocation := some ⟨7⟩ } false
      = ({ CommandState.init "t1" with
           task := some ⟨"t1"⟩
           allocation := some ⟨7⟩ },
        [.killAllocation 7]) :=
  ⟨((c7_kill_behavior { CommandState.init "t1" with task := some ⟨"t1"⟩ } ⟨"t1"⟩
      rfl rfl).1 rfl).1,
   (c7_kill_behavior { CommandState.init "t1" with
      task := some ⟨"t1"⟩
      allocation := some ⟨7⟩ } ⟨"t1"⟩ rfl rfl).2 ⟨7⟩ rfl⟩

/-- Claim C8: a valid one-entry allocation makes the command controller open
the session, start exactly that one container and publish the assigned event;
an entry count other than one fails the one-entry check (modelled as
`Except.error`) before any session or container effect; the GC controller
starts exactly one container per allocation entry. -/
theorem c8_start_counts (c : CommandState) (t : AllocateRequest) (id : TaskID)
    (allocs : List Allocation) (g : GCState)
    (h : c.task = some t) (hid : id = t.id) :
    (∀ a : Allocation, allocs = [a] →
      receiveSchedulerMsg c id allocs
        = .ok ({ c with allocation := some a, userFiles := [], additionalFiles := [] },
          [.sessionStart t.id, .startContainer a.id, .event .assigned]) ∧
      countStarts [.sessionStart t.id, .startContainer a.id, .event .assigned] = 1) ∧
    (allocs.length ≠ 1 →
      receiveSchedulerMsg c id allocs
        = .error "Command should only receive an allocation of one container") ∧
    countStarts (gcStep g (.resourcesAllocated id allocs)).2 = allocs.length := by
  refine ⟨?_, ?_, ?_⟩
  · intro a ha
    subst ha
    constructor
    · simp [receiveSchedulerMsg, h, hid]
    · rfl
  · intro hlen
    match allocs with
    | [] => simp [receiveSchedulerMsg, h, hid]
    | [a] => exact absurd rfl hlen
    | a :: b :: rest => simp [receiveSchedulerMsg, h, hid]
  · simp only [gcStep]
    simp [countStarts, List.countP_cons, isSessionStart, isStartContainer]

/-- Witness for C8 at a one-entry command allocation and a two-entry GC
allocation. -/
theorem c8_witness :
    receiveSchedulerMsg { CommandState.init "t1" with task := some ⟨"t1"⟩ } "t1" [⟨0⟩]
      = .ok ({ CommandState.init "t1" with task := some ⟨"t1"⟩, allocation := some ⟨0⟩ },
        [.sessionStart "t1", .startContainer 0, .event .assigned]) ∧
    countStarts (gcStep GCState.init (.resourcesAllocated "t1" [⟨0⟩, ⟨1⟩])).2 = 2 :=
  ⟨((c8_start_counts { CommandState.init "t1" with task := some ⟨"t1"⟩ } ⟨"t1"⟩ "t1"
      [⟨0⟩] GCState.init rfl rfl).1 ⟨0⟩ rfl).1,
   (c8_start_counts { CommandState.init "t1" with task := some ⟨"t1"⟩ } ⟨"t1"⟩ "t1"
      [⟨0⟩, ⟨1⟩] GCState.init rfl rfl).2.2⟩

/-- Claim C2, code bug: after a pre-allocation abort the controller has exited
(exit status set, one Exited event published), yet a ResourcesAllocated whose
ID matches the original request is still processed — the guard meant to
"ignore this message if the command has exited" only compares request IDs and
nothing clears the stored request on exit.  The post-exit allocation opens a
task session (present afterwards) and starts a container, contradicting the
claimed discard. -/
theorem c2_stale_allocation_after_exit :
    (runCommand (CommandState.init "t1") [.preStart, .killRequest]).map
        (fun p => (p.1.exitStatus, countExited p.2))
      = .ok (some "task is aborted without being scheduled", 1) ∧
    (runCommand (CommandState.init "t1")
        [.preStart, .killRequest, .resourcesAllocated "t1" [⟨0⟩]]).map
        (fun p => (p.1.allocation, sessionsAfter p.2, countStarts p.2))
      = .ok (some ⟨0⟩, ["t1"], 1) :=
  ⟨rfl, rfl⟩

/-- Claim C3, counterexample: on a controller killed twice before allocation,
each Kill() runs the exit path, so two Exited events are published and two
resource releases are issued — not exactly one of each. -/
theorem c3_counterexample :
    (runCommand (CommandState.init "t1") [.preStart, .killRequest, .killRequest]).map
        (fun p => (countExited p.2, countReleased p.2)) = .ok (2, 2) ∧
    (2 : Nat) ≠ 1 :=
  ⟨rfl, by decide⟩

/-- Claim C3 as amended: on an allocated controller two Kill() calls only
forward two kills to the allocation, leaving the state unchanged and
publishing no Exited event and no release (the single Exited/release pair
comes later from the Terminated container report); on an unallocated
controller each Kill() re-runs the exit path, so two Kills publish two Exited
events and issue two releases — Kill() is not idempotent before allocation. -/
theorem c3_kill_twice (c c2 : CommandState) (a : Allocation)
    (h : c.allocation = some a) (h2 : c2.allocation = none) :
    runCommand c [.killRequest, .killRequest]
      = .ok (c, [.killAllocation a.id, .killAllocation a.id]) ∧
    (runCommand c2 [.killRequest, .killRequest]).map
        (fun p => (countExited p.2, countReleased p.2)) = .ok (2, 2) := by
  constructor
  · simp [runCommand, commandStep, terminate, h]
  · cases ht : c2.task with
    | none =>
      simp only [runCommand, commandStep, terminate, exit, h2, ht]
      rfl
    | some t =>
      simp only [runCommand, commandStep, terminate, exit, h2, ht]
      rfl

/-- Witness for C3's amended statement at concrete allocated and unallocated
controllers. -/
theorem c3_witness :
    runCommand { CommandState.init "t1" with allocation := some ⟨7⟩ }
        [.killRequest, .killRequest]
      = .ok ({ CommandState.init "t1" with allocation := some ⟨7⟩ },
        [.killAllocation 7, .killAllocation 7]) ∧
    (runCommand { CommandState.init "t1" with task := some ⟨"t1"⟩ }
        [.killRequest, .killRequest]).map
        (fun p => (countExited p.2, countReleased p.2)) = .ok (2, 2) :=
  ⟨(c3_kill_twice { CommandState.init "t1" with allocation := some ⟨7⟩ }
      { CommandState.init "t1" with task := some ⟨"t1"⟩ } ⟨7⟩ rfl rfl).1,
   (c3_kill_twice { CommandState.init "t1" with allocation := some ⟨7⟩ }
      { CommandState.init "t1" with task := some ⟨"t1"⟩ } ⟨7⟩ rfl rfl).2⟩

/-- Claim C5: when the container reports Terminated after a Running transition,
every proxy entry registered on the Running transition (one per reported
address, keyed by the task ID) is unregistered strictly before the Exited
event is published, which itself precedes the resource release; afterwards the
controller's proxy-name set is empty. -/
theorem c5_unregister_before_exit (c : CommandState) (t : AllocateRequest)
    (addrs : List Address) (fail : Option String) (h : c.task = some t) :
    ∃ cF : CommandState,
      runCommand c [.containerStateChanged ⟨ContainerState.Running⟩ addrs none,
          .containerStateChanged ⟨ContainerState.Terminated⟩ [] fail]
        = .ok (cF,
          addrs.map (fun a => Effect.proxyRegister c.taskID a c.proxyTCP)
            ++ [.event .containerStarted]
            ++ addrs.map (fun _ => Effect.proxyUnregister c.taskID)
            ++ [.event (.exited (exitStatusOf fail)), .resourcesReleased,
                .armGCTimer, .sessionDelete t.id])
        ∧ cF.proxyNames = [] := by
  use { c with
    container := some (Container.mk ContainerState.Terminated)
    addresses := addrs
    proxyNames := []
    exitStatus := some (exitStatusOf fail) }
  refine And.intro ?_ rfl
  simp [runCommand, commandStep, receiveContainerStateChanged, exit, h,
    List.map_map, Function.comp]

/-- Witness for C5 at a concrete single-address Running/Terminated pair. -/
theorem c5_witness :
    ∃ cF : CommandState,
      runCommand { CommandState.init "t1" with task := some ⟨"t1"⟩ }
          [.containerStateChanged ⟨ContainerState.Running⟩ [⟨"10.0.0.5", 9000⟩] none,
           .containerStateChanged ⟨ContainerState.Terminated⟩ [] none]
        = .ok (cF,
          [⟨"10.0.0.5", 9000⟩].map (fun a => Effect.proxyRegister "t1" a false)
            ++ [.event .containerStarted]
            ++ [⟨"10.0.0.5", 9000⟩].map (fun _ : Address => Effect.proxyUnregister "t1")
            ++ [.event (.exited (exitStatusOf none)), .resourcesReleased,
                .armGCTimer, .sessionDelete "t1"])
        ∧ cF.proxyNames = [] :=
  c5_unregister_before_exit { CommandState.init "t1" with task := some ⟨"t1"⟩ }
    ⟨"t1"⟩ [⟨"10.0.0.5", 9000⟩] none rfl

/-- Helper: the exit path never starts a session. -/
theorem sessionStart_not_in_exit (c : CommandState) (s : String) (i : TaskID) :
    Effect.sessionStart i ∉ (exit c s).2 := by
  cases ht : c.task <;> simp [exit, ht]

/-- Helper: the terminate path never starts a session. -/
theorem sessionStart_not_in_terminate (c : CommandState) (b : Bool) (i : TaskID) :
    Effect.sessionStart i ∉ (terminate c b).2 := by
  cases ha : c.allocation with
  | none =>
    intro hmem
    simp only [terminate, ha] at hmem
    rcases List.mem_append.mp hmem with h1 | h2
    · cases b <;> simp at h1
    · exact sessionStart_not_in_exit c "task is aborted without being scheduled" i h2
  | some a =>
    intro hmem
    simp only [terminate, ha] at hmem
    rcases List.mem_append.mp hmem with h1 | h2
    · cases b <;> simp at h1
    · simp at h2

/-- Helper: container-state handling never starts a session. -/
theorem sessionStart_not_in_csc (c : CommandState) (cont : Container)
    (sa : List Address) (sf : Option String) (i : TaskID) :
    Effect.sessionStart i ∉ (receiveContainerStateChanged c cont sa sf).2 := by
  obtain ⟨st⟩ := cont
  cases st with
  | Running =>
    intro hmem
    simp only [receiveContainerStateChanged] at hmem
    rcases List.mem_append.mp hmem with h1 | h2
    · rcases List.mem_map.mp h1 with ⟨a, -, ha⟩
      exact absurd ha (by simp)
    · simp at h2
  | Terminated =>
    intro hmem
    simp only [receiveContainerStateChanged] at hmem
    rcases List.mem_append.mp hmem with h1 | h2
    · rcases List.mem_map.mp h1 with ⟨n, -, hn⟩
      exact absurd hn (by simp)
    · exact sessionStart_not_in_exit _ _ i h2
  | Assigned => simp [receiveContainerStateChanged]
  | Pulling => simp [receiveContainerStateChanged]
  | Starting => simp [receiveContainerStateChanged]

/-- Helper: log handling never starts a session. -/
theorem sessionStart_not_in_log (c : CommandState) (l : String) (i : TaskID) :
    Effect.sessionStart i ∉ (receiveContainerLog c l).2 := by
  by_cases hs : c.readinessMessageSent
  · simp [receiveContainerLog, hs]
  · simp only [receiveContainerLog, hs]
    split
    · split <;> simp
    · simp

/-- Helper: a session-start effect can only come out of handling a
ResourcesAllocated message carrying that very task ID. -/
theorem sessionStart_only_from_allocation (c : CommandState) (m : CommandMsg)
    (r : CommandState × List Effect) (i : TaskID)
    (hr : commandStep c m = .ok r) (hm : Effect.sessionStart i ∈ r.2) :
    ∃ allocs, m = CommandMsg.resourcesAllocated i allocs := by
  cases m with
  | preStart =>
    simp only [commandStep, Except.ok.injEq] at hr
    rw [← hr] at hm
    simp at hm
  | resourcesAllocated id allocs =>
    refine ⟨allocs, ?_⟩
    have heq : i = id := by
      simp only [commandStep, receiveSchedulerMsg] at hr
      cases ht : c.task with
      | none =>
        rw [ht] at hr
        simp only [Except.ok.injEq] at hr
        rw [← hr] at hm
        simp at hm
      | some t =>
        rw [ht] at hr
        by_cases hid : id = t.id
        · subst hid
          simp only [ne_eq, not_true_eq_false, if_false, ite_false] at hr
          rcases allocs with _ | ⟨a, _ | ⟨b, rest⟩⟩
          · exact Except.noConfusion hr
          · simp only [Except.ok.injEq] at hr
            rw [← hr] at hm
            simp only [List.mem_cons] at hm
            rcases hm with h1 | h1 | h1
            · injection h1
            · exact absurd h1 (by simp)
            · simp at h1
          · exact Except.noConfusion hr
        · simp only [ne_eq, hid, not_false_eq_true, if_true, ite_true,
            Except.ok.injEq] at hr
          rw [← hr] at hm
          simp at hm
    rw [heq]
  | killRequest =>
    simp only [commandStep, Except.ok.injEq] at hr
    rw [← hr] at hm
    exact absurd hm (sessionStart_not_in_terminate c false i)
  | containerStateChanged cont sa sf =>
    simp only [commandStep, Except.ok.injEq] at hr
    rw [← hr] at hm
    exact absurd hm (sessionStart_not_in_csc c cont sa sf i)
  | containerLog l =>
    simp only [commandStep, Except.ok.injEq] at hr
    rw [← hr] at hm
    exact absurd hm (sessionStart_not_in_log c l i)
  | postStop =>
    simp only [commandStep, Except.ok.injEq] at hr
    rw [← hr] at hm
    exact absurd hm (sessionStart_not_in_terminate c false i)
  | terminateForGC =>
    simp only [commandStep, Except.ok.injEq] at hr
    rw [← hr] at hm
    simp at hm

/-- Helper: over a whole run, a session-start effect implies a matching
ResourcesAllocated message in the trace. -/
theorem sessionStart_run (c : CommandState) (msgs : List CommandMsg)
    (r : CommandState × List Effect) (i : TaskID)
    (hr : runCommand c msgs = .ok r) (hm : Effect.sessionStart i ∈ r.2) :
    ∃ allocs, CommandMsg.resourcesAllocated i allocs ∈ msgs := by
  induction msgs generalizing c r with
  | nil =>
    simp only [runCommand, Except.ok.injEq] at hr
    rw [← hr] at hm
    simp at hm
  | cons m ms ih =>
    simp only [runCommand] at hr
    cases hs : commandStep c m with
    | error e =>
      rw [hs] at hr
      exact Except.noConfusion hr
    | ok r1 =>
      rw [hs] at hr
      have hr2 : (match runCommand r1.1 ms with
          | Except.error e => Except.error e
          | Except.ok r2 => Except.ok (r2.1, r1.2 ++ r2.2)) = Except.ok r := hr
      cases hrun : runCommand r1.1 ms with
      | error e =>
        rw [hrun] at hr2
        exact Except.noConfusion hr2
      | ok r2 =>
        rw [hrun] at hr2
        have hr3 : (r2.1, r1.2 ++ r2.2) = r := by
          have hr4 : Except.ok (ε := String) (r2.1, r1.2 ++ r2.2) = Except.ok r := hr2
          exact Except.ok.inj hr4
        rw [← hr3] at hm
        rcases List.mem_append.mp hm with h1 | h2
        · obtain ⟨allocs, hma⟩ := sessionStart_only_from_allocation c m r1 i hs h1
          exact ⟨allocs, by rw [hma]; exact List.mem_cons_self _ _⟩
        · obtain ⟨allocs, hmem⟩ := ih r1.1 r2 hrun h2
          exact ⟨allocs, List.mem_cons_of_mem m hmem⟩

/-- Helper: membership in the folded session store comes from a session-start
effect in the trace or from the initial store. -/
theorem mem_foldl_session (es : List Effect) (s : List TaskID) (i : TaskID)
    (h : i ∈ es.foldl applySessionEffect s) :
    Effect.sessionStart i ∈ es ∨ i ∈ s := by
  induction es generalizing s with
  | nil => exact Or.inr h
  | cons e rest ih =>
    simp only [List.foldl_cons] at h
    rcases ih (applySessionEffect s e) h with hmem | hs
    · exact Or.inl (List.mem_cons_of_mem e hmem)
    · cases e with
      | sessionStart j =>
        simp only [applySessionEffect] at hs
        by_cases hj : j ∈ s
        · rw [if_pos hj] at hs
          exact Or.inr hs
        · rw [if_neg hj] at hs
          rcases List.mem_cons.mp hs with h1 | h1
          · subst h1
            exact Or.inl (List.mem_cons_self _ _)
          · exact Or.inr h1
      | sessionDelete j =>
        simp only [applySessionEffect] at hs
        exact Or.inr (List.mem_of_mem_filter hs)
      | allocateRequest j => exact Or.inr hs
      | setGroupPriority => exact Or.inr hs
      | event e2 => exact Or.inr hs
      | proxyRegister n a tcp => exact Or.inr hs
      | proxyUnregister n => exact Or.inr hs
      | resourcesReleased => exact Or.inr hs
      | armGCTimer => exact Or.inr hs
      | startContainer n => exact Or.inr hs
      | killAllocation n => exact Or.inr hs
      | stopSelf => exact Or.inr hs

/-- Claim C4, counterexample: a task that was allocated and whose container
then terminated has received an Allocation (exactly one session was started
along the way) and yet holds no session afterwards — the claimed "if and only
if" fails in the only-if-received direction once the controller exits. -/
theorem c4_counterexample :
    (runCommand (CommandState.init "t1")
        [.preStart, .resourcesAllocated "t1" [⟨0⟩],
         .containerStateChanged ⟨ContainerState.Terminated⟩ [] none]).map
        (fun p => (p.1.allocation, sessionsAfter p.2, countSessionStarts p.2))
      = .ok (some ⟨0⟩, [], 1) :=
  rfl

/-- Claim C4 as amended: a session for a task is present only if that task
has received at least one Allocation (the converse fails: the session is
deleted again when the controller exits); the session is created only inside
successful OnResourcesAllocated handling; and a controller killed before
allocation never creates a session — its shutdown-time session delete removes
nothing, leaving the store empty. -/
theorem c4_session_amended (tid i : TaskID) (msgs : List CommandMsg)
    (r : CommandState × List Effect)
    (hrun : runCommand (CommandState.init tid) msgs = .ok r)
    (hmem : i ∈ sessionsAfter r.2) :
    (∃ allocs, CommandMsg.resourcesAllocated i allocs ∈ msgs) ∧
    (∀ tid2 : TaskID,
      (runCommand (CommandState.init tid2) [.preStart, .killRequest]).map
        (fun p => (countSessionStarts p.2, sessionsAfter p.2)) = .ok (0, [])) := by
  constructor
  · rcases mem_foldl_session r.2 [] i hmem with hss | hin
    · exact sessionStart_run _ msgs r i hrun hss
    · simp at hin
  · intro tid2
    rfl

/-- Witness for C4's amended statement on a trace that allocates task "t1". -/
theorem c4_witness :
    ∃ allocs, CommandMsg.resourcesAllocated "t1" allocs
      ∈ [CommandMsg.preStart, CommandMsg.resourcesAllocated "t1" [⟨0⟩]] :=
  (c4_session_amended "t1" "t1" [.preStart, .resourcesAllocated "t1" [⟨0⟩]]
    _ rfl (by decide)).1

/-- Helper: once the readiness message has been sent, no later log line ever
emits another service-ready event. -/
theorem serviceReady_not_after_sent (ls : List String) : ∀ (c : CommandState) (i : Nat),
    c.readinessMessageSent = true →
    Effect.event .serviceReady ∉ (logTrace c ls).getD i [] := by
  induction ls with
  | nil => intro c i _; simp [logTrace]
  | cons l rest ih =>
    intro c i h
    have hstep : receiveContainerLog c l = (c, [.event (.logLine l)]) := by
      simp [receiveContainerLog, h]
    simp only [logTrace, hstep]
    cases i with
    | zero => simp
    | succ n => simpa using ih c n h

/-- Helper: feeding log lines to a not-yet-ready controller emits the
service-ready event in exactly the step indexed by `firstReadyIdx`. -/
theorem logTrace_ready_iff (logs : List String) : ∀ (c : CommandState),
    c.readinessMessageSent = false → ∀ i : Nat,
    (Effect.event .serviceReady ∈ (logTrace c logs).getD i [] ↔
      firstReadyIdx c.readinessChecks logs = some i) := by
  induction logs with
  | nil => intro c h i; simp [logTrace, firstReadyIdx]
  | cons l rest ih =>
    intro c h i
    by_cases hp : (passLine c.readinessChecks l).isEmpty
    · have hr2 : (readinessChecksPass c l).2 = true := hp
      have hstep : receiveContainerLog c l
          = ({ (readinessChecksPass c l).1 with readinessMessageSent := true },
            [.event .serviceReady, .event (.logLine l)]) := by
        simp only [receiveContainerLog, h, Bool.not_false, if_true, ite_true, hr2]
      simp only [logTrace, hstep, firstReadyIdx]
      rw [if_pos hp]
      cases i with
      | zero => simp
      | succ n =>
        have hns := serviceReady_not_after_sent rest
          { (readinessChecksPass c l).1 with readinessMessageSent := true } n rfl
        simp only [List.getD_cons_succ]
        constructor
        · intro hmem
          exact absurd hmem hns
        · intro hsome
          exact absurd (Option.some.inj hsome) (by omega)
    · have hr2 : (readinessChecksPass c l).2 = false := Bool.eq_false_iff.mpr hp
      have hstep : receiveContainerLog c l
          = ((readinessChecksPass c l).1, [.event (.logLine l)]) := by
        simp only [receiveContainerLog, h, Bool.not_false, if_true, ite_true, hr2]
        rfl
      simp only [logTrace, hstep, firstReadyIdx]
      rw [if_neg hp]
      cases i with
      | zero =>
        simp only [List.getD_cons_zero]
        constructor
        · intro hmem
          simp at hmem
        · intro hsome
          rcases Option.map_eq_some'.mp hsome with ⟨k, -, hk⟩
          exact absurd hk (by omega)
      | succ n =>
        simp only [List.getD_cons_succ]
        have hcheq : (readinessChecksPass c l).1.readinessChecks
            = passLine c.readinessChecks l := rfl
        rw [ih (readinessChecksPass c l).1 h n, hcheq]
        cases hidx : firstReadyIdx (passLine c.readinessChecks l) rest with
        | none => simp
        | some k =>
          simp only [Option.map_some', Option.some.injEq]
          omega

/-- Claim C6: while the readiness message is unsent, every check whose
predicate matches the processed log line is removed from the check set; over a
whole sequence of log lines the service-ready event is emitted in exactly the
step processing the first line after which the check set is empty (hence at
most once, and never re-emitted by later lines, matching or not). -/
theorem c6_readiness (c : CommandState) (logs : List String)
    (h : c.readinessMessageSent = false) :
    (∀ c2 : CommandState, ∀ l : String, c2.readinessMessageSent = false →
      (receiveContainerLog c2 l).1.readinessChecks = passLine c2.readinessChecks l) ∧
    (∀ i : Nat, Effect.event .serviceReady ∈ (logTrace c logs).getD i [] ↔
      firstReadyIdx c.readinessChecks logs = some i) := by
  constructor
  · intro c2 l h2
    simp only [receiveContainerLog, h2, Bool.not_false, if_true, ite_true]
    split <;> rfl
  · exact logTrace_ready_iff logs c h

/-- Witness for C6 on the specification's worked example: checks A and B, log
lines noise, ready-B, noise, ready-A; the ready event fires exactly while
processing the fourth line (index 3) and at no earlier index. -/
theorem c6_witness :
    (Effect.event .serviceReady ∈
      (logTrace { CommandState.init "t1" with readinessChecks := readyChecksEx }
        ["noise", "ready-B", "noise", "ready-A"]).getD 3 []) ∧
    ¬ (Effect.event .serviceReady ∈
      (logTrace { CommandState.init "t1" with readinessChecks := readyChecksEx }
        ["noise", "ready-B", "noise", "ready-A"]).getD 1 []) :=
  ⟨((c6_readiness { CommandState.init "t1" with readinessChecks := readyChecksEx }
      ["noise", "ready-B", "noise", "ready-A"] rfl).2 3).mpr rfl,
   fun hmem =>
    absurd (((c6_readiness
        { CommandState.init "t1" with readinessChecks := readyChecksEx }
        ["noise", "ready-B", "noise", "ready-A"] rfl).2 1).mp hmem)
      (by decide)⟩

end Determined
